import Mathlib

/-!
Verification of the youtube_rss repository's core: the record model and
JSON document store (src/youtube_rss/db.py), the reconciliation engine and
refresh supervisor (src/youtube_rss/youtube_rss.py), and the error-catching
thread used by the supervisor (src/utils.py).

Each Python function the claims depend on is embedded as an executable Lean
definition that follows the source line by line; theorems about those
definitions settle the claims.
-/

set_option autoImplicit false

namespace YoutubeRss

/-! ## Record model (src/youtube_rss/db.py, dataclasses)

`FeedEntry`, `Feed` and `TitleCache` are flat dataclasses.  Python leaves the
fields untyped at runtime, but every construction site in the engine
(`get_relevant_dict_from_feed_parser_dict`) builds them from strings and a
boolean, so the dataclass-level model uses those types.  The attribute-dict
level (used by `ITable.update`) is modelled separately below for claims that
need it. -/

structure FeedEntry where
  video_id : String
  link : String
  title : String
  thumbnail : String
  seen : Bool
deriving DecidableEq, Repr

structure Feed where
  channel_id : String
  title : String
  entries : List FeedEntry
deriving DecidableEq, Repr

structure TitleCache where
  video_id : String
  title : String
deriving DecidableEq, Repr

/-- `ITable.update` (db.py lines 52-54): `for key in self.__dict__:
self.__dict__[key] = other.__dict__[key]`.  On two `FeedEntry` dataclass
instances both dicts hold exactly the five declared fields, so the loop
copies every field of `other` into `self`. -/
def FeedEntry.update (_self other : FeedEntry) : FeedEntry :=
  { video_id := other.video_id
    link := other.link
    title := other.title
    thumbnail := other.thumbnail
    seen := other.seen }

/-! ## Reconciliation engine (src/youtube_rss/youtube_rss.py lines 164-190) -/

/-- The fields the engine reads out of one feedparser entry dict:
`id`, `link`, `title`, `media_thumbnail[0]["url"]`. -/
structure RemoteEntry where
  id : String
  link : String
  title : String
  media_thumbnail_url : String
deriving DecidableEq, Repr

/-- `get_relevant_dict_from_feed_parser_dict` (youtube_rss.py lines 183-190):
builds a `FeedEntry` with `seen=False` from the feedparser dict. -/
def get_relevant_dict_from_feed_parser_dict (d : RemoteEntry) : FeedEntry :=
  { video_id := d.id
    link := d.link
    title := d.title
    thumbnail := d.media_thumbnail_url
    seen := false }

/-- The inner `for entry in feed.entries: ... break / else: insert` loop of
`refresh_subscription_by_channel_id`, restricted to the search part: walk
`entries` for the first entry whose `video_id` equals
`filtered_entry.video_id`; on a match replace it (via `filtered_entry.seen =
entry.seen; entry.update(filtered_entry)`) and stop; `none` when no entry
matches. -/
def updateFirst (filtered_entry : FeedEntry) : List FeedEntry → Option (List FeedEntry)
  | [] => none
  | entry :: rest =>
    if entry.video_id = filtered_entry.video_id then
      some (FeedEntry.update entry { filtered_entry with seen := entry.seen } :: rest)
    else
      (updateFirst filtered_entry rest).map (fun r => entry :: r)

/-- One iteration of the outer `for remote_entry in remote_feed` loop:
either the inner loop matched and updated an entry in place, or the
`for`-`else` branch ran `feed.entries.insert(0, filtered_entry)`. -/
def mergeEntry (entries : List FeedEntry) (filtered_entry : FeedEntry) : List FeedEntry :=
  match updateFirst filtered_entry entries with
  | some es => es
  | none => filtered_entry :: entries

/-- The outer loop of `refresh_subscription_by_channel_id` over the (already
reversed) remote walk. -/
def reconcile (entries : List FeedEntry) (walk : List FeedEntry) : List FeedEntry :=
  walk.foldl mergeEntry entries

/-- `refresh_subscription_by_channel_id` (youtube_rss.py lines 164-178):
fetches the remote feed (here passed in: `none` models
`parser.get_rss_entries_from_channel_id` returning `None`), reverses it, and
merges each entry into `feed.entries`. -/
def refresh_subscription_by_channel_id (feed : Feed) (remote_feed : Option (List RemoteEntry)) : Feed :=
  match remote_feed with
  | none => feed
  | some rf =>
    { feed with
      entries := reconcile feed.entries (rf.reverse.map get_relevant_dict_from_feed_parser_dict) }

/-! ## The first entry with a given video id, and how one merge step moves it -/

/-- The first entry of the list whose `video_id` is `i` (the entry the inner
loop of the engine would pick for a remote entry with id `i`). -/
def firstWith (i : String) : List FeedEntry → Option FeedEntry
  | [] => none
  | e :: rest => if e.video_id = i then some e else firstWith i rest

/-! ## Document store (`JsonDatabase`, db.py lines 163-253)

`self._data` is a Python dict mapping a `__tablename__` string (the class
name, set by `_TableMetaclass`) to the list of rows of that table.  An
insertion-ordered association list models the dict. -/

/-- Python exceptions that the store and engine code can raise. -/
inductive PyErr
  | keyError
  | attributeError
  | typeError
  | jsonDecodeError
  | databaseError
  | connectionError
  | processError
deriving DecidableEq, Repr

/-- One `ITable` row held by the store. -/
inductive Row
  | feedEntryRow (e : FeedEntry)
  | feedRow (f : Feed)
  | titleCacheRow (t : TitleCache)
deriving DecidableEq, Repr

/-- `__tablename__` is the class name (db.py lines 38-42). -/
def Row.tablename : Row → String
  | .feedEntryRow _ => "FeedEntry"
  | .feedRow _ => "Feed"
  | .titleCacheRow _ => "TitleCache"

/-- A runtime attribute value of a row (`getattr(x, k)`). -/
inductive FieldVal
  | str (s : String)
  | bool (b : Bool)
  | entryList (l : List FeedEntry)
deriving DecidableEq, Repr

/-- `getattr(row, a)`; `none` models `AttributeError`. -/
def Row.getattr : Row → String → Option FieldVal
  | .feedEntryRow e, a =>
    if a = "video_id" then some (.str e.video_id)
    else if a = "link" then some (.str e.link)
    else if a = "title" then some (.str e.title)
    else if a = "thumbnail" then some (.str e.thumbnail)
    else if a = "seen" then some (.bool e.seen)
    else none
  | .feedRow f, a =>
    if a = "channel_id" then some (.str f.channel_id)
    else if a = "title" then some (.str f.title)
    else if a = "entries" then some (.entryList f.entries)
    else none
  | .titleCacheRow t, a =>
    if a = "video_id" then some (.str t.video_id)
    else if a = "title" then some (.str t.title)
    else none

/-- `self._data`: insertion-ordered dict from table name to row list. -/
abbrev DbData := List (String × List Row)

/-- Python dict lookup `d[k]` as an option. -/
def dbLookup : DbData → String → Option (List Row)
  | [], _ => none
  | (k0, v0) :: rest, k => if k0 = k then some v0 else dbLookup rest k

/-- Python `self._data.get(k, [])`. -/
def dbGet (d : DbData) (k : String) : List Row :=
  (dbLookup d k).getD []

/-- Python dict assignment `d[k] = v`: replaces the value in place if the key
exists (keeping its position), else appends the key at the end. -/
def dbSet : DbData → String → List Row → DbData
  | [], k, v => [(k, v)]
  | (k0, v0) :: rest, k, v =>
    if k0 = k then (k0, v) :: rest else (k0, v0) :: dbSet rest k v

/-- Python `d.setdefault(k, []).append(row)`: appends `row` to the existing
list for `k`, or inserts key `k` with `[row]` at the end. -/
def dbSetdefaultAppend : DbData → String → Row → DbData
  | [], k, row => [(k, [row])]
  | (k0, v0) :: rest, k, row =>
    if k0 = k then (k0, v0 ++ [row]) :: rest
    else (k0, v0) :: dbSetdefaultAppend rest k row

/-! ### The persisted file and `save` (db.py lines 250-253) -/

/-- A filesystem operation; the content written by `json.dump` is
represented by the store data it serializes. -/
inductive FsOp (α : Type)
  | openTrunc (path : String)
  | writeAll (path : String) (content : α)
  | flush (path : String)
  | rename (src dst : String)
deriving DecidableEq

def FsOp.isRename {α : Type} : FsOp α → Bool
  | .rename _ _ => true
  | _ => false

/-- Effect of one operation on the filesystem (path to file content; `none`
is absent-or-truncated-empty). -/
def FsOp.apply {α : Type} (fs : String → Option α) : FsOp α → (String → Option α)
  | .openTrunc p => fun q => if q = p then none else fs q
  | .writeAll p c => fun q => if q = p then some c else fs q
  | .flush _ => fs
  | .rename src dst => fun q => if q = dst then fs src else if q = src then none else fs q

def runOps {α : Type} (fs : String → Option α) (ops : List (FsOp α)) : String → Option α :=
  ops.foldl FsOp.apply fs

/-- The contents of the file at `target` a concurrent reader can observe:
before the operations and after every prefix of them. -/
def observedStates {α : Type} (fs : String → Option α) (ops : List (FsOp α))
    (target : String) : List (Option α) :=
  (ops.scanl FsOp.apply fs).map (fun f => f target)

/-- Modelled from the spec: "atomic from an external observer's perspective
(a reader never observes a partially-written file)" — every observable
content of `target` during the operations is the old content or the final
content. -/
def atomicForObserver {α : Type} (fs : String → Option α) (ops : List (FsOp α))
    (target : String) : Prop :=
  ∀ st ∈ observedStates fs ops target, st = fs target ∨ st = runOps fs ops target

/-- `JsonDatabase.save`: `with self._filepath.open("w") as fp:
json.dump(self, fp, indent=4, cls=DatabaseEncoder); fp.flush()`.  Mode "w"
truncates the target file itself; the dump then writes into it.  There is no
temporary file and no rename. -/
def JsonDatabase.save_ops (filepath : String) (data : DbData) : List (FsOp DbData) :=
  [.openTrunc filepath, .writeAll filepath data, .flush filepath]

/-! ### `add` (db.py lines 169-172) -/

/-- The in-memory effect of `JsonDatabase.add`:
`self._data.setdefault(row.__tablename__, []).append(row)`. -/
def JsonDatabase.add (data : DbData) (row : Row) : DbData :=
  dbSetdefaultAppend data row.tablename row

/-- `JsonDatabase.add` with the `self.save()` it performs while holding the
store lock: the new in-memory data and the file operations of the save. -/
def JsonDatabase.add_run (data : DbData) (row : Row) (filepath : String) :
    DbData × List (FsOp DbData) :=
  (JsonDatabase.add data row, JsonDatabase.save_ops filepath (JsonDatabase.add data row))

/-! ### `remove` (db.py lines 233-239) -/

/-- `any(getattr(x, k) != v for k, v in filter_by.items())`, evaluated
lazily left to right; a missing attribute raises `AttributeError`. -/
def rowFilterAny : Row → List (String × FieldVal) → Except PyErr Bool
  | _, [] => .ok false
  | x, (k, v) :: rest =>
    match x.getattr k with
    | none => .error .attributeError
    | some w => if w = v then rowFilterAny x rest else .ok true

/-- The list comprehension in `remove`: keep exactly the rows for which the
filter disagrees on at least one field. -/
def filterKeep (fb : List (String × FieldVal)) : List Row → Except PyErr (List Row)
  | [] => .ok []
  | x :: xs =>
    match rowFilterAny x fb with
    | .error e => .error e
    | .ok b =>
      match filterKeep fb xs with
      | .error e => .error e
      | .ok r => .ok (if b then x :: r else r)

/-- `JsonDatabase.remove`: `self._data[tablename] = [x for x in
self._data.get(tablename, []) if any(getattr(x, k) != v for k, v in
filter_by.items())]`. -/
def JsonDatabase.remove (data : DbData) (tablename : String)
    (fb : List (String × FieldVal)) : Except PyErr DbData :=
  match filterKeep fb (dbGet data tablename) with
  | .error e => .error e
  | .ok kept => .ok (dbSet data tablename kept)

/-- The `channel_id` fields of the stored `Feed` rows, in storage order. -/
def channelIds (d : DbData) : List String :=
  (dbGet d "Feed").filterMap (fun r =>
    match r with
    | .feedRow f => some f.channel_id
    | _ => none)

/-- A concrete persisted store with one Feed. -/
def dbOld : DbData := [("Feed", [.feedRow ⟨"A", "Old title", []⟩])]

/-- The same store after an in-memory change, to be saved. -/
def dbNew : DbData := [("Feed", [.feedRow ⟨"A", "New title", []⟩])]

/-- A filesystem whose `database` file holds `dbOld`. -/
def fsOld : String → Option DbData := fun p => if p = "database" then some dbOld else none

/-- A Feed row used in concrete store computations. -/
def dupFeedRow : Row := .feedRow ⟨"A", "A", []⟩

/-! ## JSON decoding (`DatabaseDecoder`, db.py lines 141-156) and `_load` -/

/-- A parsed JSON value. -/
inductive Json
  | null
  | bool (b : Bool)
  | num (n : Int)
  | str (s : String)
  | arr (xs : List Json)
  | obj (kvs : List (String × Json))

/-- A value produced by `json.load` with `DatabaseDecoder`: plain JSON data,
a dataclass instance rebuilt by the object hook (its fields as untyped
values, as `class_(**data)` performs no type checks), or the result of
calling a module global that is not a dataclass (see `object_hook`). -/
inductive DVal
  | null
  | bool (b : Bool)
  | num (n : Int)
  | str (s : String)
  | arr (xs : List DVal)
  | dict (kvs : List (String × DVal))
  | feedEntryObj (video_id link title thumbnail seen : DVal)
  | feedObj (channel_id title entries : DVal)
  | titleCacheObj (video_id title : DVal)
  | nonDataclassCall (tag : String) (kvs : List (String × DVal))

def dvalLookup : List (String × DVal) → String → Option DVal
  | [], _ => none
  | (k0, v0) :: rest, k => if k0 = k then some v0 else dvalLookup rest k

/-- `data.pop(k)`'s effect on the dict: the key's pair is removed. -/
def dvalEraseKey : List (String × DVal) → String → List (String × DVal)
  | [], _ => []
  | (k0, v0) :: rest, k => if k0 = k then rest else (k0, v0) :: dvalEraseKey rest k

/-- The names bound in module `youtube_rss.db`'s namespace besides the three
dataclasses: its imports, globals and module dunders.  For these,
`getattr(sys.modules[__name__], tag)` succeeds and `class_(**data)` calls a
non-dataclass object.  (`ChannelID` and `VideoID` are bare annotations, not
module attributes.) -/
def dbModuleOtherGlobals : List String :=
  ["annotations", "dataclasses", "json", "logging", "sys", "threading",
   "ABC", "ABCMeta", "abstractmethod", "dataclass", "Path",
   "List", "Optional", "Type", "TypeVar", "Union", "logger",
   "Url", "_TableMetaclass", "TableMetaclass", "ITable", "T",
   "IDatabase", "DatabaseEncoder", "DatabaseDecoder", "DatabaseError",
   "JsonDatabase", "__name__", "__doc__", "__package__", "__loader__",
   "__spec__", "__file__", "__builtins__"]

/-- `FeedEntry(**data)`: succeeds exactly when the remaining keys are the
five declared fields (missing or unexpected keyword arguments raise
`TypeError`). -/
def constructFeedEntry (kvs : List (String × DVal)) : Except PyErr DVal :=
  match dvalLookup kvs "video_id", dvalLookup kvs "link", dvalLookup kvs "title",
      dvalLookup kvs "thumbnail", dvalLookup kvs "seen" with
  | some v, some l, some t, some th, some s =>
    if kvs.length = 5 then .ok (.feedEntryObj v l t th s) else .error .typeError
  | _, _, _, _, _ => .error .typeError

/-- `Feed(**data)`. -/
def constructFeed (kvs : List (String × DVal)) : Except PyErr DVal :=
  match dvalLookup kvs "channel_id", dvalLookup kvs "title", dvalLookup kvs "entries" with
  | some c, some t, some e =>
    if kvs.length = 3 then .ok (.feedObj c t e) else .error .typeError
  | _, _, _ => .error .typeError

/-- `TitleCache(**data)`. -/
def constructTitleCache (kvs : List (String × DVal)) : Except PyErr DVal :=
  match dvalLookup kvs "video_id", dvalLookup kvs "title" with
  | some v, some t =>
    if kvs.length = 2 then .ok (.titleCacheObj v t) else .error .typeError
  | _, _ => .error .typeError

/-- `DatabaseDecoder.object_hook` (db.py lines 145-156) on one parsed object
whose values are already decoded.  Without a `"__dataclass__"` key the dict
passes through.  With one, the key is popped and the tag looked up in the
module namespace: a dataclass name constructs the record; another module
global would be called (never reached by the claims below); any other name
makes `getattr` raise `AttributeError` — the `except KeyError: pass` clause
does not catch it, so it propagates.  A non-string tag makes `getattr` raise
`TypeError`. -/
def object_hook (kvs : List (String × DVal)) : Except PyErr DVal :=
  match dvalLookup kvs "__dataclass__" with
  | none => .ok (.dict kvs)
  | some tag =>
    let rest := dvalEraseKey kvs "__dataclass__"
    match tag with
    | .str s =>
      if s = "FeedEntry" then constructFeedEntry rest
      else if s = "Feed" then constructFeed rest
      else if s = "TitleCache" then constructTitleCache rest
      else if s ∈ dbModuleOtherGlobals then .ok (.nonDataclassCall s rest)
      else .error .attributeError
    | _ => .error .typeError

mutual

/-- `json.load`'s decode with the object hook applied bottom-up to every
object. -/
def decodeJson : Json → Except PyErr DVal
  | .null => .ok .null
  | .bool b => .ok (.bool b)
  | .num n => .ok (.num n)
  | .str s => .ok (.str s)
  | .arr xs =>
    match decodeArr xs with
    | .error e => .error e
    | .ok vs => .ok (.arr vs)
  | .obj kvs =>
    match decodeKvs kvs with
    | .error e => .error e
    | .ok dkvs => object_hook dkvs

def decodeArr : List Json → Except PyErr (List DVal)
  | [] => .ok []
  | x :: xs =>
    match decodeJson x with
    | .error e => .error e
    | .ok v =>
      match decodeArr xs with
      | .error e => .error e
      | .ok vs => .ok (v :: vs)

def decodeKvs : List (String × Json) → Except PyErr (List (String × DVal))
  | [] => .ok []
  | (k, x) :: xs =>
    match decodeJson x with
    | .error e => .error e
    | .ok v =>
      match decodeKvs xs with
      | .error e => .error e
      | .ok vs => .ok ((k, v) :: vs)

end

/-- `json.load(file_pointer, cls=DatabaseDecoder)`: the byte-level parse
outcome is passed in as `Option Json` — `none` models bytes that are not
valid JSON, for which the parser raises `json.JSONDecodeError` before any
hook runs. -/
def json_load (parsed : Option Json) : Except PyErr DVal :=
  match parsed with
  | none => .error .jsonDecodeError
  | some j => decodeJson j

/-- `JsonDatabase._load` (db.py lines 241-248): only `json.JSONDecodeError`
is caught — it is logged and the store data silently becomes `{}`; any other
exception (such as the unknown-tag `AttributeError`) propagates out of
`connect`. -/
def JsonDatabase._load (parsed : Option Json) : Except PyErr DVal :=
  match json_load parsed with
  | .error .jsonDecodeError => .ok (.dict [])
  | .error e => .error e
  | .ok v => .ok v

/-! ## Attribute-dict level `ITable.update`, for C8 -/

/-- An attribute value in an entry object's `__dict__`. -/
inductive Attr
  | str (s : String)
  | bool (b : Bool)
deriving DecidableEq, Repr

/-- An object's `__dict__`: insertion-ordered attribute map. -/
abbrev AttrDict := List (String × Attr)

def attrLookup : AttrDict → String → Option Attr
  | [], _ => none
  | (k0, v0) :: rest, k => if k0 = k then some v0 else attrLookup rest k

/-- Python attribute assignment on `__dict__`: replace in place or append. -/
def attrSet : AttrDict → String → Attr → AttrDict
  | [], k, v => [(k, v)]
  | (k0, v0) :: rest, k, v =>
    if k0 = k then (k0, v) :: rest else (k0, v0) :: attrSet rest k v

/-- `ITable.update` at `__dict__` level (db.py lines 52-54): `for key in
self.__dict__: self.__dict__[key] = other.__dict__[key]`; a key of `self`
that `other` lacks raises `KeyError`. -/
def dict_update : AttrDict → AttrDict → Except PyErr AttrDict
  | [], _ => .ok []
  | (k, _) :: rest, other =>
    match attrLookup other k with
    | none => .error .keyError
    | some v =>
      match dict_update rest other with
      | .error e => .error e
      | .ok r => .ok ((k, v) :: r)

/-- The matched-entry branch of the engine's inner loop at attribute level
(youtube_rss.py lines 172-176): `filtered_entry.seen = entry.seen;
entry.update(filtered_entry)`. -/
def merge_matched_dict (entry filtered_entry : AttrDict) : Except PyErr AttrDict :=
  match attrLookup entry "seen" with
  | none => .error .attributeError
  | some s => dict_update entry (attrSet filtered_entry "seen" s)

/-- A stored entry whose `__dict__` additionally carries the
`thumbnail_file` attribute the claim describes. -/
def entryWithThumbFile : AttrDict :=
  [("video_id", .str "v1"), ("link", .str "https://l1"), ("title", .str "t1"),
   ("thumbnail", .str "https://th1"), ("seen", .bool true),
   ("thumbnail_file", .str "/thumbs/v1.jpg")]

/-- The freshly fetched entry for the same video with the same thumbnail
URL; `get_relevant_dict_from_feed_parser_dict` builds exactly these five
attributes, never a `thumbnail_file`. -/
def remoteSameThumb : AttrDict :=
  [("video_id", .str "v1"), ("link", .str "https://l1x"), ("title", .str "t1x"),
   ("thumbnail", .str "https://th1"), ("seen", .bool false)]

/-! ## Refresh supervisor (youtube_rss.py lines 123-161) with
`ErrorCatchingThread` (src/utils.py) -/

/-- Outcome of `parser.get_rss_entries_from_channel_id(cid)`: the HTTP fetch
raises a connectivity error, or the parsed entry list is returned. -/
inductive FetchOutcome
  | connectionError
  | entries (rs : List RemoteEntry)

/-- `fetch_one_or_none(db.Feed, channel_id=cid)` over the Feed table
(db.py lines 204-222): `None` when nothing matches, the unique match
otherwise, `DatabaseError("Multiple entries found")` when several match. -/
def fetch_one_or_none_feed (table : List Feed) (cid : String) : Except PyErr (Option Feed) :=
  match table.filter (fun f => decide (f.channel_id = cid)) with
  | [] => .ok none
  | [f] => .ok (some f)
  | _ :: _ :: _ => .error .databaseError

/-- One worker thread's complete run (`ErrorCatchingThread.run`, utils.py
lines 18-27, with target `refresh_subscription_by_channel_id(feed_)`): a
connectivity error from the fetch is caught and stored in `self.exc` and the
feed stays untouched; otherwise the worker reconciles its feed in place —
the feed with the worker's channel id is updated in the table. -/
def worker_refresh (fetch : String → FetchOutcome) (table : List Feed) (cid : String) :
    List Feed × Option PyErr :=
  match fetch cid with
  | .connectionError => (table, some .connectionError)
  | .entries rs =>
    (table.map (fun f =>
      if f.channel_id = cid then refresh_subscription_by_channel_id f (some rs) else f),
     none)

/-- The spawn loop of `refresh_subscriptions_by_channel_id_process`
(youtube_rss.py lines 143-153), together with the started workers' runs: for
each requested feed, `fetch_one_or_none` picks the stored feed — skipping
absent channels, raising `DatabaseError` on duplicates, which aborts the
loop.  Every started thread runs to completion regardless of later failures,
so its table update and stored exception are accumulated here.  (The claims
refresh pairwise-distinct channels, so the concurrent workers touch disjoint
feeds and running them in start order is faithful.)  Returns the final
table, the stored per-thread exceptions in start order, and the spawn loop's
own exception if any. -/
def spawnAndRun (fetch : String → FetchOutcome) :
    List Feed → List Feed → List Feed × List (Option PyErr) × Option PyErr
  | table, [] => (table, [], none)
  | table, feed :: rest =>
    match fetch_one_or_none_feed table feed.channel_id with
    | .error _ => (table, [], some .databaseError)
    | .ok none => spawnAndRun fetch table rest
    | .ok (some _) =>
      let wr := worker_refresh fetch table feed.channel_id
      let sr := spawnAndRun fetch wr.1 rest
      (sr.1, wr.2 :: sr.2.1, sr.2.2)

/-- The first stored exception: the `for thread in threads: thread.join()`
loop re-raises the stored exception of the first failed thread
(`ErrorCatchingThread.join`, utils.py lines 29-37). -/
def firstExc : List (Option PyErr) → Option PyErr
  | [] => none
  | some e :: _ => some e
  | none :: rest => firstExc rest

/-- What one run of the refresh child process leaves behind. -/
structure ProcOutcome where
  memDb : List Feed
  persisted : Option (List Feed)
  error : Option PyErr
deriving DecidableEq, Repr

/-- `refresh_subscriptions_by_channel_id_process` (youtube_rss.py lines
139-161) acting on the Feed table it loaded: spawn one worker per requested
feed and join them.  The first stored worker exception is re-raised by
`join`, which aborts the function before `database.save()` runs — nothing is
persisted and the process exits non-zero.  Only when every join is clean
does `database.save()` persist the table.  (`CONFIG.USE_THUMBNAILS` is
`False`, so the thumbnail step between the joins and the save is skipped.) -/
def refresh_subscriptions_by_channel_id_process (fetch : String → FetchOutcome)
    (db : List Feed) (feeds : List Feed) : ProcOutcome :=
  let sr := spawnAndRun fetch db feeds
  match sr.2.2 with
  | some e => ⟨sr.1, none, some e⟩
  | none =>
    match firstExc sr.2.1 with
    | some e => ⟨sr.1, none, some e⟩
    | none => ⟨sr.1, some sr.1, none⟩

/-- `refresh_subscriptions_by_channel_id` (youtube_rss.py lines 123-136):
the batch runs in a separate child process over the persisted store; any
exception escaping the child's target function makes its exit code non-zero,
which the parent turns into `ProcessError` — and the persisted file then
still holds its pre-refresh content, since the child's save never ran. -/
def refresh_subscriptions_by_channel_id (fetch : String → FetchOutcome)
    (persistedDb : List Feed) (feeds : List Feed) : Except PyErr (List Feed) :=
  let r := refresh_subscriptions_by_channel_id_process fetch persistedDb feeds
  match r.error with
  | some _ => .error .processError
  | none => .ok (r.persisted.getD persistedDb)

/-- Channel A of the isolation scenario: one already-seen entry. -/
def feedA : Feed := ⟨"chanA", "A", [⟨"a1", "https://a1", "ta", "https://tha", true⟩]⟩

/-- Channel B of the isolation scenario: no entries yet. -/
def feedB : Feed := ⟨"chanB", "B", []⟩

/-- The remote entries channel B's fetch returns. -/
def remoteB : List RemoteEntry := [⟨"b1", "https://b1", "tb", "https://thb"⟩]

/-- A fetch where channel A raises a connectivity error and channel B
succeeds. -/
def fetchAB : String → FetchOutcome := fun cid =>
  if cid = "chanA" then .connectionError else .entries remoteB

/-! ## Theorems -/

theorem FeedEntry.update_eq (e f : FeedEntry) : FeedEntry.update e f = f := by
  cases f; rfl

/-! ## Basic lemmas about the merge -/

theorem updateFirst_nil (f : FeedEntry) : updateFirst f [] = none := rfl

theorem updateFirst_cons_pos (f e : FeedEntry) (rest : List FeedEntry)
    (h : e.video_id = f.video_id) :
    updateFirst f (e :: rest) = some ({ f with seen := e.seen } :: rest) := by
  simp [updateFirst, h, FeedEntry.update_eq]

theorem updateFirst_cons_neg (f e : FeedEntry) (rest : List FeedEntry)
    (h : ¬ e.video_id = f.video_id) :
    updateFirst f (e :: rest) = (updateFirst f rest).map (fun r => e :: r) := by
  simp [updateFirst, h]

/-! ## C3: new-entry ordering -/

/-- C3: reconciling local entries `[E2, E1]` (newest-first) with a remote
list whose reversal is walked as `[E1, E2, E3]` (oldest to newest) yields
`[E3, E2, E1]`: E3 is new and prepended, E1 and E2 are matched and updated in
place without moving. -/
theorem c3_new_entry_ordering (cid t : String) (e1 e2 : FeedEntry)
    (r1 r2 r3 : RemoteEntry)
    (h1 : r1.id = e1.video_id) (h2 : r2.id = e2.video_id)
    (h12 : e1.video_id ≠ e2.video_id)
    (h31 : r3.id ≠ e1.video_id) (h32 : r3.id ≠ e2.video_id) :
    refresh_subscription_by_channel_id ⟨cid, t, [e2, e1]⟩ (some [r3, r2, r1]) =
      ⟨cid, t,
        [get_relevant_dict_from_feed_parser_dict r3,
         { get_relevant_dict_from_feed_parser_dict r2 with seen := e2.seen },
         { get_relevant_dict_from_feed_parser_dict r1 with seen := e1.seen }]⟩ := by
  have q1 : ¬ e2.video_id = (get_relevant_dict_from_feed_parser_dict r1).video_id := by
    show ¬ e2.video_id = r1.id
    rw [h1]
    exact fun h => h12 h.symm
  have p1 : e1.video_id = (get_relevant_dict_from_feed_parser_dict r1).video_id := by
    show e1.video_id = r1.id
    exact h1.symm
  have p2 : e2.video_id = (get_relevant_dict_from_feed_parser_dict r2).video_id := by
    show e2.video_id = r2.id
    exact h2.symm
  have q3a : ¬ ({ get_relevant_dict_from_feed_parser_dict r2 with seen := e2.seen } :
      FeedEntry).video_id = (get_relevant_dict_from_feed_parser_dict r3).video_id := by
    show ¬ r2.id = r3.id
    rw [h2]
    exact fun h => h32 h.symm
  have q3b : ¬ ({ get_relevant_dict_from_feed_parser_dict r1 with seen := e1.seen } :
      FeedEntry).video_id = (get_relevant_dict_from_feed_parser_dict r3).video_id := by
    show ¬ r1.id = r3.id
    rw [h1]
    exact fun h => h31 h.symm
  have u1 : updateFirst (get_relevant_dict_from_feed_parser_dict r1) [e2, e1] =
      some [e2, { get_relevant_dict_from_feed_parser_dict r1 with seen := e1.seen }] := by
    rw [show ([e2, e1] : List FeedEntry) = e2 :: [e1] from rfl,
      updateFirst_cons_neg _ _ _ q1, updateFirst_cons_pos _ _ _ p1]
    rfl
  have u2 : updateFirst (get_relevant_dict_from_feed_parser_dict r2)
        [e2, { get_relevant_dict_from_feed_parser_dict r1 with seen := e1.seen }] =
      some [{ get_relevant_dict_from_feed_parser_dict r2 with seen := e2.seen },
        { get_relevant_dict_from_feed_parser_dict r1 with seen := e1.seen }] := by
    rw [updateFirst_cons_pos _ _ _ p2]
  have u3 : updateFirst (get_relevant_dict_from_feed_parser_dict r3)
        [{ get_relevant_dict_from_feed_parser_dict r2 with seen := e2.seen },
         { get_relevant_dict_from_feed_parser_dict r1 with seen := e1.seen }] = none := by
    rw [updateFirst_cons_neg _ _ _ q3a, updateFirst_cons_neg _ _ _ q3b, updateFirst_nil]
    rfl
  show Feed.mk cid t
      (reconcile [e2, e1] (List.map get_relevant_dict_from_feed_parser_dict
        (List.reverse [r3, r2, r1]))) = _
  rw [show List.reverse [r3, r2, r1] = [r1, r2, r3] by rfl]
  simp only [List.map_cons, List.map_nil, reconcile, List.foldl_cons, List.foldl_nil]
  rw [show mergeEntry [e2, e1] (get_relevant_dict_from_feed_parser_dict r1) =
      [e2, { get_relevant_dict_from_feed_parser_dict r1 with seen := e1.seen }] by
    unfold mergeEntry; rw [u1]]
  rw [show mergeEntry [e2, { get_relevant_dict_from_feed_parser_dict r1 with seen := e1.seen }]
        (get_relevant_dict_from_feed_parser_dict r2) =
      [{ get_relevant_dict_from_feed_parser_dict r2 with seen := e2.seen },
       { get_relevant_dict_from_feed_parser_dict r1 with seen := e1.seen }] by
    unfold mergeEntry; rw [u2]]
  unfold mergeEntry
  rw [u3]

/-- Witness for C3 at concrete entries. -/
theorem c3_new_entry_ordering_witness :
    refresh_subscription_by_channel_id
        ⟨"c", "chan",
          [⟨"v2", "https://l2", "t2", "https://th2", true⟩,
           ⟨"v1", "https://l1", "t1", "https://th1", true⟩]⟩
        (some [⟨"v3", "https://l3x", "t3x", "https://th3x"⟩,
               ⟨"v2", "https://l2x", "t2x", "https://th2x"⟩,
               ⟨"v1", "https://l1x", "t1x", "https://th1x"⟩]) =
      ⟨"c", "chan",
        [⟨"v3", "https://l3x", "t3x", "https://th3x", false⟩,
         ⟨"v2", "https://l2x", "t2x", "https://th2x", true⟩,
         ⟨"v1", "https://l1x", "t1x", "https://th1x", true⟩]⟩ := by
  rw [c3_new_entry_ordering "c" "chan"
    ⟨"v1", "https://l1", "t1", "https://th1", true⟩
    ⟨"v2", "https://l2", "t2", "https://th2", true⟩
    ⟨"v1", "https://l1x", "t1x", "https://th1x"⟩
    ⟨"v2", "https://l2x", "t2x", "https://th2x"⟩
    ⟨"v3", "https://l3x", "t3x", "https://th3x"⟩
    rfl rfl (by decide) (by decide) (by decide)]
  rfl

@[simp] theorem withSeen_video_id (f : FeedEntry) (s : Bool) :
    ({ f with seen := s } : FeedEntry).video_id = f.video_id := rfl

@[simp] theorem withSeen_seen (f : FeedEntry) (s : Bool) :
    ({ f with seen := s } : FeedEntry).seen = s := rfl

theorem firstWith_nil (i : String) : firstWith i [] = none := rfl

theorem firstWith_cons_pos {e : FeedEntry} {i : String} (rest : List FeedEntry)
    (h : e.video_id = i) : firstWith i (e :: rest) = some e := by
  simp [firstWith, h]

theorem firstWith_cons_neg {e : FeedEntry} {i : String} (rest : List FeedEntry)
    (h : ¬ e.video_id = i) : firstWith i (e :: rest) = firstWith i rest := by
  simp [firstWith, h]

theorem mergeEntry_eq_of_updateFirst_some {f : FeedEntry} {es es' : List FeedEntry}
    (h : updateFirst f es = some es') : mergeEntry es f = es' := by
  unfold mergeEntry
  rw [h]

theorem mergeEntry_eq_of_updateFirst_none {f : FeedEntry} {es : List FeedEntry}
    (h : updateFirst f es = none) : mergeEntry es f = f :: es := by
  unfold mergeEntry
  rw [h]

theorem updateFirst_eq_none_iff {f : FeedEntry} {es : List FeedEntry} :
    updateFirst f es = none ↔ firstWith f.video_id es = none := by
  induction es with
  | nil => simp [updateFirst, firstWith]
  | cons e rest ih =>
    by_cases h : e.video_id = f.video_id
    · simp [updateFirst, firstWith, h]
    · simp [updateFirst, firstWith, h, ih]

theorem updateFirst_eq_some_of_firstWith {f : FeedEntry} {es : List FeedEntry}
    (h : firstWith f.video_id es ≠ none) : ∃ r, updateFirst f es = some r := by
  rcases hu : updateFirst f es with _ | r
  · exact absurd (updateFirst_eq_none_iff.mp hu) h
  · exact ⟨r, rfl⟩

theorem mergeEntry_cons_pos {f e0 : FeedEntry} {rest : List FeedEntry}
    (h : e0.video_id = f.video_id) :
    mergeEntry (e0 :: rest) f = { f with seen := e0.seen } :: rest :=
  mergeEntry_eq_of_updateFirst_some (updateFirst_cons_pos _ _ _ h)

theorem mergeEntry_cons_neg_some {f e0 : FeedEntry} {rest r : List FeedEntry}
    (h : ¬ e0.video_id = f.video_id) (hu : updateFirst f rest = some r) :
    mergeEntry (e0 :: rest) f = e0 :: r := by
  apply mergeEntry_eq_of_updateFirst_some
  rw [updateFirst_cons_neg _ _ _ h, hu]
  rfl

theorem mergeEntry_cons_neg_none {f e0 : FeedEntry} {rest : List FeedEntry}
    (h : ¬ e0.video_id = f.video_id) (hu : updateFirst f rest = none) :
    mergeEntry (e0 :: rest) f = f :: e0 :: rest := by
  apply mergeEntry_eq_of_updateFirst_none
  rw [updateFirst_cons_neg _ _ _ h, hu]
  rfl

theorem mergeEntry_insert {f : FeedEntry} {es : List FeedEntry}
    (h : firstWith f.video_id es = none) : mergeEntry es f = f :: es :=
  mergeEntry_eq_of_updateFirst_none (updateFirst_eq_none_iff.mpr h)

/-! ## C2: a refresh never flips `seen` from true to false -/

theorem mergeEntry_preserves_seen_true {i : String} {f : FeedEntry} :
    ∀ {es : List FeedEntry}, (∃ e ∈ es, e.video_id = i ∧ e.seen = true) →
      ∃ e ∈ mergeEntry es f, e.video_id = i ∧ e.seen = true := by
  intro es
  induction es with
  | nil =>
    rintro ⟨e, he, -⟩
    cases he
  | cons e0 rest ih =>
    rintro ⟨e, he, hvid, hseen⟩
    by_cases h0 : e0.video_id = f.video_id
    · rw [mergeEntry_cons_pos h0]
      rcases List.mem_cons.mp he with rfl | hmem
      · refine ⟨{ f with seen := e.seen }, List.mem_cons_self _ _, ?_, by simp [hseen]⟩
        simp [← h0, hvid]
      · exact ⟨e, List.mem_cons_of_mem _ hmem, hvid, hseen⟩
    · rcases hu : updateFirst f rest with _ | r
      · rw [mergeEntry_cons_neg_none h0 hu]
        exact ⟨e, List.mem_cons_of_mem _ he, hvid, hseen⟩
      · rw [mergeEntry_cons_neg_some h0 hu]
        rcases List.mem_cons.mp he with rfl | hmem
        · exact ⟨e, List.mem_cons_self _ _, hvid, hseen⟩
        · have hr : mergeEntry rest f = r := mergeEntry_eq_of_updateFirst_some hu
          rcases ih ⟨e, hmem, hvid, hseen⟩ with ⟨e', he', hvid', hseen'⟩
          rw [hr] at he'
          exact ⟨e', List.mem_cons_of_mem _ he', hvid', hseen'⟩

theorem reconcile_preserves_seen_true {i : String} :
    ∀ (walk : List FeedEntry) {es : List FeedEntry},
      (∃ e ∈ es, e.video_id = i ∧ e.seen = true) →
      ∃ e ∈ reconcile es walk, e.video_id = i ∧ e.seen = true := by
  intro walk
  induction walk with
  | nil => exact fun h => h
  | cons f rest ih =>
    intro es h
    exact ih (mergeEntry_preserves_seen_true h)

/-- C2: reconciliation never sets `seen` back from true to false: if some
entry with id `i` has `seen = true` before the refresh and the remote list
still carries id `i`, the refreshed entry list still holds an entry with id
`i` and `seen = true`. -/
theorem c2_seen_preserved (feed : Feed) (remote : List RemoteEntry) (i : String)
    (hbefore : ∃ e ∈ feed.entries, e.video_id = i ∧ e.seen = true)
    (_hremote : ∃ r ∈ remote, r.id = i) :
    ∃ e ∈ (refresh_subscription_by_channel_id feed (some remote)).entries,
      e.video_id = i ∧ e.seen = true := by
  show ∃ e ∈ reconcile feed.entries
      (remote.reverse.map get_relevant_dict_from_feed_parser_dict), _
  exact reconcile_preserves_seen_true _ hbefore

/-- Witness for C2 at a concrete channel and remote list. -/
theorem c2_seen_preserved_witness :
    ∃ e ∈ (refresh_subscription_by_channel_id
        ⟨"c", "chan", [⟨"v1", "https://l1", "t1", "https://th1", true⟩]⟩
        (some [⟨"v1", "https://l1x", "t1x", "https://th1x"⟩])).entries,
      e.video_id = "v1" ∧ e.seen = true :=
  c2_seen_preserved
    ⟨"c", "chan", [⟨"v1", "https://l1", "t1", "https://th1", true⟩]⟩
    [⟨"v1", "https://l1x", "t1x", "https://th1x"⟩] "v1"
    ⟨⟨"v1", "https://l1", "t1", "https://th1", true⟩, by decide⟩
    ⟨⟨"v1", "https://l1x", "t1x", "https://th1x"⟩, by decide⟩

/-! ## C7: reconciliation is idempotent -/

@[simp] theorem withSeen_self (f : FeedEntry) : ({ f with seen := f.seen } : FeedEntry) = f := by
  cases f
  rfl

theorem firstWith_mergeEntry_self_none {f : FeedEntry} {es : List FeedEntry}
    (h : firstWith f.video_id es = none) :
    firstWith f.video_id (mergeEntry es f) = some f := by
  rw [mergeEntry_insert h, firstWith_cons_pos _ rfl]

theorem firstWith_mergeEntry_self_some {f e : FeedEntry} :
    ∀ {es : List FeedEntry}, firstWith f.video_id es = some e →
      firstWith f.video_id (mergeEntry es f) = some { f with seen := e.seen } := by
  intro es
  induction es with
  | nil => intro h; simp [firstWith] at h
  | cons e0 rest ih =>
    intro h
    by_cases h0 : e0.video_id = f.video_id
    · rw [firstWith_cons_pos _ h0] at h
      injection h with h2
      subst h2
      rw [mergeEntry_cons_pos h0, firstWith_cons_pos _ (by simp [h0])]
    · rw [firstWith_cons_neg _ h0] at h
      obtain ⟨r, hu⟩ := updateFirst_eq_some_of_firstWith (f := f) (by rw [h]; simp)
      rw [mergeEntry_cons_neg_some h0 hu, firstWith_cons_neg _ h0,
        ← mergeEntry_eq_of_updateFirst_some hu]
      exact ih h

theorem firstWith_mergeEntry_other {i : String} {f : FeedEntry} (hne : i ≠ f.video_id) :
    ∀ {es : List FeedEntry}, firstWith i (mergeEntry es f) = firstWith i es := by
  intro es
  induction es with
  | nil =>
    rw [mergeEntry_insert (firstWith_nil _), firstWith_cons_neg _ (fun h => hne h.symm)]
  | cons e0 rest ih =>
    by_cases h0 : e0.video_id = f.video_id
    · rw [mergeEntry_cons_pos h0,
        firstWith_cons_neg _ (show ¬ ({ f with seen := e0.seen } : FeedEntry).video_id = i by
          simp
          exact fun h => hne h.symm),
        firstWith_cons_neg _ (show ¬ e0.video_id = i by rw [h0]; exact fun h => hne h.symm)]
    · rcases hu : updateFirst f rest with _ | r
      · rw [mergeEntry_cons_neg_none h0 hu, firstWith_cons_neg _ (fun h => hne h.symm)]
      · rw [mergeEntry_cons_neg_some h0 hu]
        by_cases h1 : e0.video_id = i
        · rw [firstWith_cons_pos _ h1, firstWith_cons_pos _ h1]
        · rw [firstWith_cons_neg _ h1, firstWith_cons_neg _ h1,
            ← mergeEntry_eq_of_updateFirst_some hu]
          exact ih

theorem firstWith_mergeEntry_self_ne_none {f : FeedEntry} {es : List FeedEntry} :
    firstWith f.video_id (mergeEntry es f) ≠ none := by
  rcases h : firstWith f.video_id es with _ | e
  · rw [firstWith_mergeEntry_self_none h]
    simp
  · rw [firstWith_mergeEntry_self_some h]
    simp

theorem firstWith_mergeEntry_ne_none {i : String} {f : FeedEntry} {es : List FeedEntry}
    (hp : firstWith i es ≠ none) : firstWith i (mergeEntry es f) ≠ none := by
  by_cases hi : i = f.video_id
  · subst hi
    exact firstWith_mergeEntry_self_ne_none
  · rw [firstWith_mergeEntry_other hi]
    exact hp

theorem mergeEntry_noop {f e : FeedEntry} :
    ∀ {es : List FeedEntry}, firstWith f.video_id es = some e →
      { f with seen := e.seen } = e → mergeEntry es f = es := by
  intro es
  induction es with
  | nil => intro h _; simp [firstWith] at h
  | cons e0 rest ih =>
    intro h hf
    by_cases h0 : e0.video_id = f.video_id
    · rw [firstWith_cons_pos _ h0] at h
      injection h with h2
      subst h2
      rw [mergeEntry_cons_pos h0, hf]
    · rw [firstWith_cons_neg _ h0] at h
      obtain ⟨r, hu⟩ := updateFirst_eq_some_of_firstWith (f := f) (by rw [h]; simp)
      rw [mergeEntry_cons_neg_some h0 hu, ← mergeEntry_eq_of_updateFirst_some hu, ih h hf]

theorem mergeEntry_same_id {f g : FeedEntry} (hgf : g.video_id = f.video_id) :
    ∀ {es : List FeedEntry}, firstWith f.video_id es ≠ none →
      mergeEntry (mergeEntry es f) g = mergeEntry es g := by
  intro es
  induction es with
  | nil => intro hp; exact absurd rfl hp
  | cons e0 rest ih =>
    intro hp
    by_cases h0 : e0.video_id = f.video_id
    · have h0g : e0.video_id = g.video_id := by rw [h0, hgf]
      rw [mergeEntry_cons_pos h0,
        mergeEntry_cons_pos (show ({ f with seen := e0.seen } : FeedEntry).video_id = g.video_id by
          simp [hgf.symm]),
        mergeEntry_cons_pos h0g]
    · have hrest : firstWith f.video_id rest ≠ none := by
        rwa [firstWith_cons_neg _ h0] at hp
      obtain ⟨r, hu⟩ := updateFirst_eq_some_of_firstWith hrest
      have hr : mergeEntry rest f = r := mergeEntry_eq_of_updateFirst_some hu
      have h0g : ¬ e0.video_id = g.video_id := by rw [hgf]; exact h0
      have hgr : firstWith g.video_id r ≠ none := by
        rw [hgf, ← hr]
        exact firstWith_mergeEntry_self_ne_none
      obtain ⟨r2, hu2⟩ := updateFirst_eq_some_of_firstWith hgr
      have hgrest : firstWith g.video_id rest ≠ none := by rw [hgf]; exact hrest
      obtain ⟨r3, hu3⟩ := updateFirst_eq_some_of_firstWith hgrest
      rw [mergeEntry_cons_neg_some h0 hu, mergeEntry_cons_neg_some h0g hu2,
        mergeEntry_cons_neg_some h0g hu3]
      have hstep := ih hrest
      rw [hr] at hstep
      rw [← mergeEntry_eq_of_updateFirst_some hu2, ← mergeEntry_eq_of_updateFirst_some hu3, hstep]

theorem mergeEntry_comm {f g : FeedEntry} (hne : g.video_id ≠ f.video_id) :
    ∀ {es : List FeedEntry}, firstWith f.video_id es ≠ none →
      mergeEntry (mergeEntry es f) g = mergeEntry (mergeEntry es g) f := by
  intro es
  induction es with
  | nil => intro hp; exact absurd rfl hp
  | cons e0 rest ih =>
    intro hp
    by_cases h0 : e0.video_id = f.video_id
    · have h0g : ¬ e0.video_id = g.video_id := by rw [h0]; exact fun h => hne h.symm
      have hhead : ¬ ({ f with seen := e0.seen } : FeedEntry).video_id = g.video_id := by
        simp
        exact fun h => hne h.symm
      rw [mergeEntry_cons_pos h0]
      rcases hu : updateFirst g rest with _ | r
      · rw [mergeEntry_cons_neg_none hhead hu, mergeEntry_cons_neg_none h0g hu,
          mergeEntry_eq_of_updateFirst_some
            (show updateFirst f (g :: e0 :: rest) =
                some (g :: { f with seen := e0.seen } :: rest) by
              rw [updateFirst_cons_neg _ _ _ hne, updateFirst_cons_pos _ _ _ h0]
              rfl)]
      · rw [mergeEntry_cons_neg_some hhead hu, mergeEntry_cons_neg_some h0g hu,
          mergeEntry_cons_pos h0]
    · have hrest : firstWith f.video_id rest ≠ none := by
        rwa [firstWith_cons_neg _ h0] at hp
      obtain ⟨rf, huf⟩ := updateFirst_eq_some_of_firstWith hrest
      have hrf : mergeEntry rest f = rf := mergeEntry_eq_of_updateFirst_some huf
      rw [mergeEntry_cons_neg_some h0 huf]
      by_cases h0g : e0.video_id = g.video_id
      · have hhead : ¬ ({ g with seen := e0.seen } : FeedEntry).video_id = f.video_id := by
          simpa using hne
        rw [mergeEntry_cons_pos h0g, mergeEntry_cons_pos h0g,
          mergeEntry_cons_neg_some hhead huf]
      · rcases hu : updateFirst g rest with _ | rg
        · have hnone : firstWith g.video_id rf = none := by
            rw [← hrf, firstWith_mergeEntry_other hne]
            exact updateFirst_eq_none_iff.mp hu
          rw [mergeEntry_cons_neg_none h0g (updateFirst_eq_none_iff.mpr hnone),
            mergeEntry_cons_neg_none h0g hu,
            mergeEntry_eq_of_updateFirst_some
              (show updateFirst f (g :: e0 :: rest) = some (g :: e0 :: rf) by
                rw [updateFirst_cons_neg _ _ _ hne, updateFirst_cons_neg _ _ _ h0, huf]
                rfl)]
        · have hrg : mergeEntry rest g = rg := mergeEntry_eq_of_updateFirst_some hu
          have hgrf : firstWith g.video_id rf ≠ none := by
            rw [← hrf, firstWith_mergeEntry_other hne]
            intro hnone
            rw [updateFirst_eq_none_iff.mpr hnone] at hu
            cases hu
          obtain ⟨r2, hu2⟩ := updateFirst_eq_some_of_firstWith hgrf
          have hfrg : firstWith f.video_id rg ≠ none := by
            rw [← hrg, firstWith_mergeEntry_other (fun h => hne h.symm)]
            exact hrest
          obtain ⟨r3, hu3⟩ := updateFirst_eq_some_of_firstWith hfrg
          rw [mergeEntry_cons_neg_some h0g hu2, mergeEntry_cons_neg_some h0g hu,
            mergeEntry_cons_neg_some h0 hu3]
          have hstep := ih hrest
          rw [hrf, hrg] at hstep
          rw [← mergeEntry_eq_of_updateFirst_some hu2,
            ← mergeEntry_eq_of_updateFirst_some hu3, hstep]

theorem reconcile_nil (es : List FeedEntry) : reconcile es [] = es := rfl

theorem reconcile_cons (es : List FeedEntry) (f : FeedEntry) (ws : List FeedEntry) :
    reconcile es (f :: ws) = reconcile (mergeEntry es f) ws := rfl

theorem reconcile_append (es p q : List FeedEntry) :
    reconcile es (p ++ q) = reconcile (reconcile es p) q :=
  List.foldl_append _ _ _ _

theorem firstWith_reconcile_other {i : String} :
    ∀ (ws : List FeedEntry) {es : List FeedEntry}, (∀ g ∈ ws, g.video_id ≠ i) →
      firstWith i (reconcile es ws) = firstWith i es := by
  intro ws
  induction ws with
  | nil => intro es _; rfl
  | cons g t ih =>
    intro es h
    rw [reconcile_cons, ih (fun x hx => h x (List.mem_cons_of_mem _ hx)),
      firstWith_mergeEntry_other (h g (List.mem_cons_self _ _)).symm]

theorem firstWith_reconcile_ne_none {i : String} :
    ∀ (ws : List FeedEntry) {es : List FeedEntry}, firstWith i es ≠ none →
      firstWith i (reconcile es ws) ≠ none := by
  intro ws
  induction ws with
  | nil => intro es h; exact h
  | cons g t ih =>
    intro es h
    exact ih (firstWith_mergeEntry_ne_none h)

theorem mem_firstWith_reconcile {f : FeedEntry} :
    ∀ {ws es : List FeedEntry}, f ∈ ws → firstWith f.video_id (reconcile es ws) ≠ none := by
  intro ws
  induction ws with
  | nil => intro es h; cases h
  | cons g t ih =>
    intro es h
    rcases List.mem_cons.mp h with rfl | hmem
    · exact firstWith_reconcile_ne_none t firstWith_mergeEntry_self_ne_none
    · exact ih hmem

theorem reconcile_mergeEntry_absorb :
    ∀ (q : List FeedEntry) {es : List FeedEntry} {f : FeedEntry},
      firstWith f.video_id es ≠ none → (∃ g ∈ q, g.video_id = f.video_id) →
      reconcile (mergeEntry es f) q = reconcile es q := by
  intro q
  induction q with
  | nil =>
    rintro es f hp ⟨g, hg, -⟩
    cases hg
  | cons g t ih =>
    rintro es f hp hex
    by_cases hgf : g.video_id = f.video_id
    · rw [reconcile_cons, reconcile_cons, mergeEntry_same_id hgf hp]
    · rw [reconcile_cons, reconcile_cons, mergeEntry_comm hgf hp]
      rcases hex with ⟨g', hg', hvid⟩
      rcases List.mem_cons.mp hg' with rfl | hmem
      · exact absurd hvid hgf
      · exact ih (firstWith_mergeEntry_ne_none hp) ⟨g', hmem, hvid⟩

theorem firstWith_reconcile_last (p q : List FeedEntry) (es : List FeedEntry) (f : FeedEntry)
    (hq : ∀ g ∈ q, g.video_id ≠ f.video_id) :
    ∃ s, firstWith f.video_id (reconcile es (p ++ f :: q)) = some { f with seen := s } := by
  rw [reconcile_append, reconcile_cons, firstWith_reconcile_other q hq]
  rcases h : firstWith f.video_id (reconcile es p) with _ | e
  · exact ⟨f.seen, by rw [firstWith_mergeEntry_self_none h, withSeen_self]⟩
  · exact ⟨e.seen, firstWith_mergeEntry_self_some h⟩

theorem reconcile_stable :
    ∀ (ws R : List FeedEntry),
      (∀ f ∈ ws, firstWith f.video_id R ≠ none) →
      (∀ (p : List FeedEntry) (f : FeedEntry) (q : List FeedEntry), ws = p ++ f :: q →
        (∀ g ∈ q, g.video_id ≠ f.video_id) →
        ∃ s, firstWith f.video_id R = some { f with seen := s }) →
      reconcile R ws = R := by
  intro ws
  induction ws with
  | nil => intro R _ _; rfl
  | cons f t ih =>
    intro R hpres hlast
    by_cases hdup : ∃ g ∈ t, g.video_id = f.video_id
    · rw [reconcile_cons,
        reconcile_mergeEntry_absorb t (hpres f (List.mem_cons_self _ _)) hdup]
      exact ih R (fun g hg => hpres g (List.mem_cons_of_mem _ hg))
        (fun p g q hpq hq => hlast (f :: p) g q (by rw [hpq]; rfl) hq)
    · push_neg at hdup
      obtain ⟨s, hs⟩ := hlast [] f t rfl hdup
      rw [reconcile_cons, mergeEntry_noop hs (by simp)]
      exact ih R (fun g hg => hpres g (List.mem_cons_of_mem _ hg))
        (fun p g q hpq hq => hlast (f :: p) g q (by rw [hpq]; rfl) hq)

theorem reconcile_idem (es ws : List FeedEntry) :
    reconcile (reconcile es ws) ws = reconcile es ws := by
  apply reconcile_stable
  · intro f hf
    exact mem_firstWith_reconcile hf
  · intro p f q hpq hq
    rw [hpq]
    exact firstWith_reconcile_last p q es f hq

/-- C7: applying the reconciliation merge twice in a row with the same remote
entry list produces exactly the same entry list (same elements, fields and
order) as applying it once. -/
theorem c7_refresh_idempotent (feed : Feed) (remote_feed : Option (List RemoteEntry)) :
    refresh_subscription_by_channel_id
        (refresh_subscription_by_channel_id feed remote_feed) remote_feed =
      refresh_subscription_by_channel_id feed remote_feed := by
  cases remote_feed with
  | none => rfl
  | some rf =>
    show Feed.mk feed.channel_id feed.title
        (reconcile (reconcile feed.entries (rf.reverse.map get_relevant_dict_from_feed_parser_dict))
          (rf.reverse.map get_relevant_dict_from_feed_parser_dict)) =
      Feed.mk feed.channel_id feed.title
        (reconcile feed.entries (rf.reverse.map get_relevant_dict_from_feed_parser_dict))
    rw [reconcile_idem]

theorem dbLookup_setdefaultAppend_self (k : String) (row : Row) :
    ∀ d : DbData, dbLookup (dbSetdefaultAppend d k row) k = some (dbGet d k ++ [row]) := by
  intro d
  induction d with
  | nil => simp [dbSetdefaultAppend, dbLookup, dbGet]
  | cons p rest ih =>
    rcases p with ⟨k0, v0⟩
    by_cases h : k0 = k
    · simp [dbSetdefaultAppend, dbLookup, dbGet, h]
    · simp [dbSetdefaultAppend, dbLookup, dbGet, h, ih]

theorem dbLookup_setdefaultAppend_other {k k' : String} (row : Row) (hne : k' ≠ k) :
    ∀ d : DbData, dbLookup (dbSetdefaultAppend d k row) k' = dbLookup d k' := by
  intro d
  induction d with
  | nil => simp [dbSetdefaultAppend, dbLookup, Ne.symm hne]
  | cons p rest ih =>
    rcases p with ⟨k0, v0⟩
    by_cases h : k0 = k
    · subst h
      simp [dbSetdefaultAppend, dbLookup, Ne.symm hne]
    · simp only [dbSetdefaultAppend, if_neg h, dbLookup]
      by_cases h' : k0 = k'
      · simp [h']
      · simp [h', ih]

theorem dbLookup_set_self (k : String) (v : List Row) :
    ∀ d : DbData, dbLookup (dbSet d k v) k = some v := by
  intro d
  induction d with
  | nil => simp [dbSet, dbLookup]
  | cons p rest ih =>
    rcases p with ⟨k0, v0⟩
    by_cases h : k0 = k
    · simp [dbSet, dbLookup, h]
    · simp [dbSet, dbLookup, h, ih]

theorem dbLookup_set_other {k k' : String} (v : List Row) (hne : k' ≠ k) :
    ∀ d : DbData, dbLookup (dbSet d k v) k' = dbLookup d k' := by
  intro d
  induction d with
  | nil => simp [dbSet, dbLookup, Ne.symm hne]
  | cons p rest ih =>
    rcases p with ⟨k0, v0⟩
    by_cases h : k0 = k
    · subst h
      simp [dbSet, dbLookup, Ne.symm hne]
    · simp only [dbSet, if_neg h, dbLookup]
      by_cases h' : k0 = k'
      · simp [h']
      · simp [h', ih]

/-! ## C4: `save` is not an atomic temp-file-and-rename swap -/

/-- C4 counterexample: saving over an existing persisted store uses no
rename at all, and a concurrent reader of the target can observe the
truncated file — a state that is neither the old nor the new content — so
`save` is not atomic from an external observer's perspective. -/
theorem c4_save_not_atomic_cex :
    (∀ op ∈ JsonDatabase.save_ops "database" dbNew, op.isRename = false) ∧
    ¬ atomicForObserver fsOld (JsonDatabase.save_ops "database" dbNew) "database" := by
  constructor
  · decide
  · intro h
    have hmem : (none : Option DbData) ∈
        observedStates fsOld (JsonDatabase.save_ops "database" dbNew) "database" := by
      rw [show observedStates fsOld (JsonDatabase.save_ops "database" dbNew) "database" =
          [some dbOld, none, some dbNew, some dbNew] from rfl]
      simp
    rcases h none hmem with h' | h'
    · rw [show fsOld "database" = some dbOld from rfl] at h'
      cases h'
    · rw [show runOps fsOld (JsonDatabase.save_ops "database" dbNew) "database" =
          some dbNew from rfl] at h'
      cases h'

/-- C4 amended: `save` serializes the whole store, but it opens the target
file itself in write mode (truncating it) and writes into it directly; no
temporary file or rename is involved, and whenever the target previously had
content, a concurrent reader can observe a state that is neither the old nor
the new content. -/
theorem c4_save_writes_target_directly (fs : String → Option DbData) (fp : String)
    (data : DbData) :
    runOps fs (JsonDatabase.save_ops fp data) fp = some data ∧
    (∀ op ∈ JsonDatabase.save_ops fp data, op.isRename = false) ∧
    (fs fp ≠ none → ¬ atomicForObserver fs (JsonDatabase.save_ops fp data) fp) := by
  have hrun : runOps fs (JsonDatabase.save_ops fp data) fp = some data := by
    simp [runOps, JsonDatabase.save_ops, FsOp.apply]
  refine ⟨hrun, ?_, ?_⟩
  · intro op hop
    simp only [JsonDatabase.save_ops, List.mem_cons, List.not_mem_nil, or_false] at hop
    rcases hop with rfl | rfl | rfl <;> rfl
  · intro hne h
    have hobs : observedStates fs (JsonDatabase.save_ops fp data) fp =
        [fs fp, none, some data, some data] := by
      simp [observedStates, JsonDatabase.save_ops, FsOp.apply, List.scanl_cons, List.scanl_nil]
    have hmem : (none : Option DbData) ∈
        observedStates fs (JsonDatabase.save_ops fp data) fp := by
      rw [hobs]
      simp
    rcases h none hmem with h' | h'
    · exact hne h'.symm
    · rw [hrun] at h'
      cases h'

/-- Witness for C4's amended statement at a concrete store and filesystem. -/
theorem c4_save_writes_target_directly_witness :
    runOps fsOld (JsonDatabase.save_ops "database" dbNew) "database" = some dbNew ∧
    ¬ atomicForObserver fsOld (JsonDatabase.save_ops "database" dbNew) "database" := by
  have h := c4_save_writes_target_directly fsOld "database" dbNew
  exact ⟨h.1, h.2.2 (by rw [show fsOld "database" = some dbOld from rfl]; simp)⟩

/-! ## C6: `add` enforces no uniqueness -/

/-- C6 counterexample: adding a Feed row with channel id "A" twice succeeds
(there is no `DuplicateKeyError` anywhere in `JsonDatabase.add`) and leaves
two Channel records with the same `channel_id` in the store. -/
theorem c6_duplicate_add_cex :
    channelIds (JsonDatabase.add (JsonDatabase.add [] dupFeedRow) dupFeedRow) = ["A", "A"] ∧
    ¬ (channelIds (JsonDatabase.add (JsonDatabase.add [] dupFeedRow) dupFeedRow)).Nodup := by
  constructor
  · rfl
  · decide

/-- C6 amended: `add` appends its row under the row's table unconditionally
— it never fails and checks no uniqueness — so adding a Feed always appends
its `channel_id` to the stored Channel ids, duplicate or not. -/
theorem c6_add_appends_unconditionally (data : DbData) (f : Feed) :
    channelIds (JsonDatabase.add data (.feedRow f)) = channelIds data ++ [f.channel_id] := by
  unfold channelIds JsonDatabase.add
  rw [show Row.tablename (.feedRow f) = "Feed" from rfl]
  rw [show dbGet (dbSetdefaultAppend data "Feed" (.feedRow f)) "Feed" =
      dbGet data "Feed" ++ [Row.feedRow f] from by
    unfold dbGet
    rw [dbLookup_setdefaultAppend_self]
    rfl]
  rw [List.filterMap_append]
  rfl

/-! ## C9: `add` persists the appended store immediately -/

/-- C9: `add` appends the row to its kind's table in memory and immediately
runs `save()`, so the persisted file afterwards holds exactly the store with
the row appended and every other table unchanged — no separate `save()` call
is needed for durability. -/
theorem c9_add_saves_whole_store (data : DbData) (row : Row) (fp : String)
    (fs : String → Option DbData) :
    ∃ d', JsonDatabase.add_run data row fp = (d', JsonDatabase.save_ops fp d') ∧
      runOps fs (JsonDatabase.add_run data row fp).2 fp = some d' ∧
      dbGet d' row.tablename = dbGet data row.tablename ++ [row] ∧
      (∀ k, k ≠ row.tablename → dbLookup d' k = dbLookup data k) := by
  refine ⟨JsonDatabase.add data row, rfl, ?_, ?_, ?_⟩
  · simp [JsonDatabase.add_run, runOps, JsonDatabase.save_ops, FsOp.apply]
  · unfold JsonDatabase.add dbGet
    rw [dbLookup_setdefaultAppend_self]
    rfl
  · intro k hk
    exact dbLookup_setdefaultAppend_other _ hk _

/-- Witness for C9 at a concrete store, row and filesystem. -/
theorem c9_add_saves_whole_store_witness :
    ∃ d', JsonDatabase.add_run [] dupFeedRow "database" =
        (d', JsonDatabase.save_ops "database" d') ∧
      runOps (fun _ => none) (JsonDatabase.add_run [] dupFeedRow "database").2 "database" =
        some d' ∧
      dbGet d' dupFeedRow.tablename = dbGet [] dupFeedRow.tablename ++ [dupFeedRow] ∧
      (∀ k, k ≠ dupFeedRow.tablename → dbLookup d' k = dbLookup [] k) :=
  c9_add_saves_whole_store [] dupFeedRow "database" (fun _ => none)

/-! ## C10: `remove` with an empty filter empties the table -/

/-- C10: removing with an empty filter keeps exactly the rows for which some
filter field disagrees — none, when the filter is empty — so the kind's
table becomes empty while every other table is untouched. -/
theorem c10_remove_empty_filter (data : DbData) (t : String) :
    ∃ d', JsonDatabase.remove data t [] = .ok d' ∧ dbGet d' t = [] ∧
      ∀ k, k ≠ t → dbLookup d' k = dbLookup data k := by
  have hkeep : ∀ l : List Row, filterKeep [] l = .ok [] := by
    intro l
    induction l with
    | nil => rfl
    | cons x xs ih => simp [filterKeep, rowFilterAny, ih]
  refine ⟨dbSet data t [], ?_, ?_, ?_⟩
  · unfold JsonDatabase.remove
    rw [hkeep]
  · unfold dbGet
    rw [dbLookup_set_self]
    rfl
  · intro k hk
    exact dbLookup_set_other _ hk _

/-- Witness for C10 at a concrete store. -/
theorem c10_remove_empty_filter_witness :
    ∃ d', JsonDatabase.remove dbOld "Feed" [] = .ok d' ∧ dbGet d' "Feed" = [] ∧
      ∀ k, k ≠ "Feed" → dbLookup d' k = dbLookup dbOld k :=
  c10_remove_empty_filter dbOld "Feed"

/-! ## C5: what load actually does with bad persisted data -/

/-- C5 counterexample: a persisted file whose bytes cannot be parsed does
not make load fail at all — the decode error is swallowed and the store
silently becomes empty; and a record with an unknown kind tag raises a plain
`AttributeError` (no `CorruptStoreError` exists in the code). -/
theorem c5_load_cex :
    JsonDatabase._load none = .ok (.dict []) ∧
    JsonDatabase._load (some (.obj [("__dataclass__", .str "NoSuchClass")])) =
      .error .attributeError := by
  exact ⟨rfl, rfl⟩

/-- C5 amended: on unparsable persisted bytes, `_load` catches the decode
error and silently replaces the whole store with `{}` (the caller is never
told); a record tagged with a kind unknown to the module raises
`AttributeError`, which `_load` does not catch, so it propagates out of
`connect` as a crash rather than a dedicated corrupt-store error. -/
theorem c5_load_fallback_and_unknown_tag (tag : String)
    (h1 : ¬ tag = "FeedEntry") (h2 : ¬ tag = "Feed") (h3 : ¬ tag = "TitleCache")
    (h4 : ¬ tag ∈ dbModuleOtherGlobals) :
    JsonDatabase._load none = .ok (.dict []) ∧
    JsonDatabase._load (some (.obj [("__dataclass__", .str tag)])) =
      .error .attributeError := by
  refine ⟨rfl, ?_⟩
  have hdecode : decodeJson (.obj [("__dataclass__", .str tag)]) = .error .attributeError := by
    rw [show decodeJson (.obj [("__dataclass__", .str tag)]) =
        object_hook [("__dataclass__", .str tag)] from rfl]
    simp [object_hook, dvalLookup, dvalEraseKey, h1, h2, h3, h4]
  simp only [JsonDatabase._load, json_load, hdecode]

/-- Witness for C5's amended statement at a concrete unknown tag. -/
theorem c5_load_fallback_and_unknown_tag_witness :
    JsonDatabase._load none = .ok (.dict []) ∧
    JsonDatabase._load (some (.obj [("__dataclass__", .str "Channel")])) =
      .error .attributeError :=
  c5_load_fallback_and_unknown_tag "Channel" (by decide) (by decide) (by decide) (by decide)

/-! ## C8: no `thumbnail_file` retention in the merge -/

/-- C8 counterexample: for a matched entry whose `thumbnail_url` is
unchanged and which carries a `thumbnail_file`, the merge does not retain
the `thumbnail_file` — `entry.update(filtered_entry)` raises `KeyError`,
because the freshly built remote entry has no `thumbnail_file` attribute. -/
theorem c8_thumbnail_file_cex :
    attrLookup entryWithThumbFile "thumbnail" = attrLookup remoteSameThumb "thumbnail" ∧
    attrLookup entryWithThumbFile "thumbnail_file" = some (.str "/thumbs/v1.jpg") ∧
    merge_matched_dict entryWithThumbFile remoteSameThumb = .error .keyError := by
  exact ⟨rfl, rfl, rfl⟩

/-- C8 amended: a stored entry holds exactly the five dataclass attributes —
there is no `thumbnail_file` field — and the matched-entry merge overwrites
every remote-sourced field including `thumbnail` unconditionally, keeping
only the local `seen`; the merged entry carries no `thumbnail_file`. -/
theorem c8_merge_overwrites_thumbnail (v l t th s v' l' t' th' s' : Attr) :
    merge_matched_dict
        [("video_id", v), ("link", l), ("title", t), ("thumbnail", th), ("seen", s)]
        [("video_id", v'), ("link", l'), ("title", t'), ("thumbnail", th'), ("seen", s')] =
      .ok [("video_id", v'), ("link", l'), ("title", t'), ("thumbnail", th'), ("seen", s)] ∧
    attrLookup
        [("video_id", v'), ("link", l'), ("title", t'), ("thumbnail", th'), ("seen", s)]
        "thumbnail_file" = none := by
  exact ⟨rfl, rfl⟩

/-! ## C1: a failing channel aborts the batch before the save -/

/-- C1 counterexample: with channel A's fetch raising a connectivity error
and channel B's succeeding, the batch does not complete with B's work
persisted — the re-raised worker error aborts the process before
`database.save()`, nothing at all is persisted, and the caller gets
`ProcessError`. -/
theorem c1_batch_discards_b_cex :
    (refresh_subscriptions_by_channel_id_process fetchAB [feedA, feedB]
        [feedA, feedB]).persisted = none ∧
    (refresh_subscriptions_by_channel_id_process fetchAB [feedA, feedB]
        [feedA, feedB]).error = some .connectionError ∧
    refresh_subscriptions_by_channel_id fetchAB [feedA, feedB] [feedA, feedB] =
      .error .processError := by
  exact ⟨rfl, rfl, rfl⟩

/-- C1 amended: channel A's error is caught per-worker and B's worker still
completes — in memory the final table holds B's reconciled feed and A's
unchanged one — but `ErrorCatchingThread.join` re-raises A's stored error in
the supervisor, so the batch save is skipped: nothing is persisted (B's work
is discarded with the child process) and the caller sees `ProcessError`. -/
theorem c1_failed_worker_skips_save (fetch : String → FetchOutcome) (fa fb : Feed)
    (rs : List RemoteEntry)
    (hab : fa.channel_id ≠ fb.channel_id)
    (hA : fetch fa.channel_id = .connectionError)
    (hB : fetch fb.channel_id = .entries rs) :
    refresh_subscriptions_by_channel_id_process fetch [fa, fb] [fa, fb] =
      ⟨[fa, refresh_subscription_by_channel_id fb (some rs)], none,
        some .connectionError⟩ ∧
    refresh_subscriptions_by_channel_id fetch [fa, fb] [fa, fb] =
      .error .processError := by
  have h1 : fetch_one_or_none_feed [fa, fb] fa.channel_id = .ok (some fa) := by
    unfold fetch_one_or_none_feed
    rw [show List.filter (fun f => decide (f.channel_id = fa.channel_id)) [fa, fb] =
        [fa] from by simp [List.filter_cons, Ne.symm hab]]
  have h2 : fetch_one_or_none_feed [fa, fb] fb.channel_id = .ok (some fb) := by
    unfold fetch_one_or_none_feed
    rw [show List.filter (fun f => decide (f.channel_id = fb.channel_id)) [fa, fb] =
        [fb] from by simp [List.filter_cons, hab]]
  have w1 : worker_refresh fetch [fa, fb] fa.channel_id = ([fa, fb], some .connectionError) := by
    unfold worker_refresh
    rw [hA]
  have w2 : worker_refresh fetch [fa, fb] fb.channel_id =
      ([fa, refresh_subscription_by_channel_id fb (some rs)], none) := by
    unfold worker_refresh
    rw [hB]
    simp [hab]
  have hs : spawnAndRun fetch [fa, fb] [fa, fb] =
      ([fa, refresh_subscription_by_channel_id fb (some rs)],
       [some PyErr.connectionError, none], none) := by
    simp only [spawnAndRun, h1, h2, w1, w2]
  constructor
  · unfold refresh_subscriptions_by_channel_id_process
    rw [hs]
    rfl
  · unfold refresh_subscriptions_by_channel_id refresh_subscriptions_by_channel_id_process
    rw [hs]
    rfl

/-- Witness for C1's amended statement at the concrete A/B scenario. -/
theorem c1_failed_worker_skips_save_witness :
    refresh_subscriptions_by_channel_id_process fetchAB [feedA, feedB] [feedA, feedB] =
      ⟨[feedA, refresh_subscription_by_channel_id feedB (some remoteB)], none,
        some .connectionError⟩ ∧
    refresh_subscriptions_by_channel_id fetchAB [feedA, feedB] [feedA, feedB] =
      .error .processError :=
  c1_failed_worker_skips_save fetchAB feedA feedB remoteB (by decide) rfl rfl

end YoutubeRss
